import Mathlib

/-!
Formal model of the PyMotors Tic stepper driver core
(src/pymotors/tic_stepper.py, src/pymotors/stepper_base.py,
src/pymotors/tic_stage.py), as a shallow embedding in Lean.

Bytes and machine integers are modelled as `Nat`/`Int`; Python exceptions as
an explicit error type; transport replies and device reads are supplied as
explicit arguments (oracles).  Python `float('nan')` positions are modelled by
`Option Int` with `none` standing for a non-finite value; the claims under
study only involve finite positions.
-/

namespace PyMotors

/-- Python exception kinds relevant to the modelled code. -/
inductive PyErr
  | valueError
  | attributeError
  deriving DecidableEq, Repr

/-! ## Wire codec: `TicSerial.send` and `TicI2C.send` (src/pymotors/tic_stepper.py) -/

/-- `TicSerial._makeSerialInput` (tic_stepper.py lines 519-528): compact header
`[offset]` when no device number is configured, else the addressed header
`[0xAA, device_number, offset &&& 0x7F]`; the data bytes are appended. -/
def makeSerialInput (deviceNumber : Option Nat) (offset : Nat) (data : List Nat) : List Nat :=
  (match deviceNumber with
   | none => [offset]
   | some dn => [0xAA, dn, offset &&& 0x7F]) ++ data

/-- Python `bytes(l)` (and smbus2 `i2c_msg.write`'s byte conversion) succeeds
iff every element is in `0..255`; otherwise it raises `ValueError`
(behaviour pinned for i2c by `tests/test_tic_stepper.py`,
`test_data_larger_than_7_bit`). -/
def bytesInRange (l : List Nat) : Bool := l.all (· < 256)

/-- Payload bytes built by `TicSerial.send` for a 32-bit write
(tic_stepper.py lines 559-569): the stuffing byte followed by the four
little-endian bytes with their top bits cleared. -/
def serialWrite32Data (v : Nat) : List Nat :=
  [ (v >>> 7 &&& 1) ||| (v >>> 14 &&& 2) ||| (v >>> 21 &&& 4) ||| (v >>> 28 &&& 8),
    v >>> 0 &&& 0x7F,
    v >>> 8 &&& 0x7F,
    v >>> 16 &&& 0x7F,
    v >>> 24 &&& 0x7F ]

/-- The byte string `TicSerial.send` writes to the port for a 32-bit write
command (`protocol == 32` branch). -/
def serialWrite32Command (deviceNumber : Option Nat) (offset v : Nat) : List Nat :=
  makeSerialInput deviceNumber offset (serialWrite32Data v)

/-- The byte string `TicI2C.send` hands to `i2c_msg.write` for a 32-bit write
(tic_stepper.py lines 633-639): plain little-endian, no stuffing. -/
def i2cWrite32Command (offset v : Nat) : List Nat :=
  [offset,
   v >>> 0 &&& 0xFF,
   v >>> 8 &&& 0xFF,
   v >>> 16 &&& 0xFF,
   v >>> 24 &&& 0xFF]

/-- `TicSerial.send` on a 7-bit write (tic_stepper.py lines 555-558, 572-574):
the command `bytes(header ++ [v])` is built first, so Python `bytes` raises
`ValueError` when an element is outside `0..255` and nothing is written.
The result is the list of `port.write` calls performed. -/
def serialSendWrite7 (deviceNumber : Option Nat) (offset v : Nat) :
    Except PyErr (List (List Nat)) :=
  let command := makeSerialInput deviceNumber offset [v]
  if bytesInRange command then .ok [command] else .error .valueError

/-- `TicI2C.send` on a 7-bit write (tic_stepper.py lines 630-631, 644-645):
the command `[offset, v]` is handed to `i2c_msg.write`, whose byte conversion
raises `ValueError` for values outside `0..255` before any bus transaction.
The result is the list of bus writes `(address, bytes)` performed. -/
def i2cSendWrite7 (address offset v : Nat) :
    Except PyErr (List (Nat × List Nat)) :=
  let command := [offset, v]
  if bytesInRange command then .ok [(address, command)] else .error .valueError

/-! ## Reply decoding: `TicStepper.bytesToInt` and `TicStepper._position_in_steps` -/

/-- `TicStepper.bytesToInt` (tic_stepper.py lines 137-144).  `b[0] + (b[1] << 8)`
is computed outside the `try`, so a reply shorter than 2 bytes raises an
uncaught `IndexError` (modelled as `none`); the high-byte addition sits in a
`try`/`finally` whose `return` swallows the `IndexError` of a 2- or 3-byte
reply, returning the low 16 bits only. -/
def bytesToInt (b : List Nat) : Option Nat :=
  match b with
  | b0 :: b1 :: rest =>
      let val := b0 + (b1 <<< 8)
      some (match rest with
            | b2 :: b3 :: _ => val + (b2 <<< 16) + (b3 <<< 24)
            | _ => val)
  | _ => none

/-- `TicStepper._position_in_steps` (tic_stepper.py lines 294-306) applied to
the reply bytes `b` of the `curr_position` block read: unsigned little-endian
assembly, then two's-complement correction. -/
def positionInSteps (b : List Nat) : Option Int :=
  (bytesToInt b).map fun location =>
    if location ≥ 1 <<< 31 then (location : Int) - (1 <<< 32) else (location : Int)

/-! ## `TicStepper.checkLimitSwitch` (tic_stepper.py lines 146-159) -/

/-- Python `==` between the transport reply (a `list`/`bytearray`) and the
integer `0`: operands of different types, never equal, so the comparison is
always `False`. -/
def pyListEqZero (_reply : List Nat) : Bool := false

/-- `TicStepper.checkLimitSwitch` (tic_stepper.py lines 146-159), with the
transport reply to the settings block read supplied as `reply` (the method is
only reached when that read succeeds).  The reply is compared to the integer
`0` with Python `==`. -/
def checkLimitSwitch (direction : String) (reply : List Nat) : Bool :=
  if direction = "fwd" then
    if pyListEqZero reply then false else true
  else if direction = "rev" then
    if pyListEqZero reply then false else true
  else
    false

/-! ## The stage state machine: `TicStage` (src/pymotors/tic_stage.py)

`TicStage` extends `TicStepper`.  The state fields the claims depend on are
modelled in `StageState`; floating-point speed bookkeeping (`rpm`,
`_steps_per_second`) is not tracked, as no operation's control flow or any
claim depends on it.  Position-like fields initialised to `float('nan')` are
modelled as `Option Int`, `none` standing for any non-finite float; Python
comparisons with a non-finite `nan` are `False`. -/

/-- A Python float position: `some n` a finite integer value, `none` a
non-finite value (`float('nan')`, `float('inf')`). -/
abbrev PyPos := Option Int

/-- Python `x >= y` with `x` an int and `y` a possibly non-finite float. -/
def pyGe (x : Int) (y : PyPos) : Bool :=
  match y with
  | some n => decide (n ≤ x)
  | none => false

/-- Python `x <= y` with `x` an int and `y` a possibly non-finite float. -/
def pyLe (x : Int) (y : PyPos) : Bool :=
  match y with
  | some n => decide (x ≤ n)
  | none => false

/-- Python `a - b` on possibly non-finite values (collapsing all non-finite
results to `none`). -/
def pySub (a b : PyPos) : PyPos :=
  match a, b with
  | some x, some y => some (x - y)
  | _, _ => none

/-- The `TicStage` state fields the claims depend on. -/
structure StageState where
  /-- `StepperBase._enable`, as driven by the `TicStepper.enable` setter. -/
  enabled : Bool
  /-- `TicStage._fwd_sw_present` (cached from one settings read). -/
  fwdSwPresent : Bool
  /-- `TicStage._rev_sw_present`. -/
  revSwPresent : Bool
  /-- `TicStage._is_motion_range_known`. -/
  isMotionRangeKnown : Bool
  /-- `TicStage._allowed_motion_range[0]`. -/
  allowedLo : PyPos
  /-- `TicStage._allowed_motion_range[1]`. -/
  allowedHi : PyPos
  /-- `TicStage._rev_lim_sw_position_tic` (initially `float('nan')`). -/
  revLimSwPosition : PyPos
  /-- `TicStage._fwd_lim_sw_position_tic` (initially `float('nan')`). -/
  fwdLimSwPosition : PyPos
  /-- `TicStage._index_positions`, an insertion-ordered dict as an association
  list. -/
  indexPositions : List (Int × Int)
  /-- `StepperBase._target_steps`. -/
  targetSteps : Int
  deriving DecidableEq, Repr

/-- `_SOFTLIMIT_BUFFER_STEPS` (tic_stage.py line 29). -/
def softlimitBufferSteps : Int := 20

/-- Command address of the `gVariable` block read (`_command_dict`), the one
transport command issued by `getCurrentPositionSteps`. -/
def cmdGetVariable : Nat := 0xA1

namespace TicStage

/-- `TicStage.isTargetValid` (tic_stage.py lines 250-274): `int(target_pos)`
succeeds on the integer positions considered; the range must be known, then
both bounds are checked inclusively (a comparison against a non-finite bound
is `False`). -/
def isTargetValid (st : StageState) (targetPos : Int) : Bool :=
  if st.isMotionRangeKnown = false then false
  else pyGe targetPos st.allowedLo && pyLe targetPos st.allowedHi

/-- `TicStage._updateAllowedMotionRange` (tic_stage.py lines 609-626). -/
def updateAllowedMotionRange (st : StageState) : Bool × StageState :=
  if st.isMotionRangeKnown then
    (true, { st with
              allowedLo := st.revLimSwPosition.map (· + softlimitBufferSteps),
              allowedHi := st.fwdLimSwPosition.map (· - softlimitBufferSteps) })
  else
    (false, { st with allowedLo := some 0, allowedHi := some 0 })

/-- `TicStage.disable` (tic_stage.py lines 123-142).  The two flags are
cleared first; `self.enable = False` (the `TicStepper` setter) then records
the local disable before sending `enterSafeStart`/`deenergize`, so even when a
send raises (`sendOk = false`, the `except` branch returning `False`) the
state is already cleared and de-enabled. -/
def disable (sendOk : Bool) (st : StageState) : Bool × StageState :=
  (sendOk,
   { st with
      isMotionRangeKnown := false
      allowedLo := some 0
      allowedHi := some 0
      enabled := false })

/-- `TicStage.moveAbsSteps` (tic_stage.py lines 276-330).  The third component
lists the command addresses of the `com.send` transport calls issued.  In the
validated branches the code calls `super()._moveAbsSteps(position_steps)`:
no class in the hierarchy (`TicStage`, `TicStepper`, `StepperBase`) defines
`_moveAbsSteps` (only `moveAbsSteps` exists), so attribute lookup raises
`AttributeError` before any transport command. -/
def moveAbsSteps (st : StageState) (positionSteps : Int) (openLoopAssert : Bool) :
    Except PyErr Bool × StageState × List Nat :=
  if st.isMotionRangeKnown then
    if isTargetValid st positionSteps then (.error .attributeError, st, [])
    else (.ok false, st, [])
  else if openLoopAssert then (.error .attributeError, st, [])
  else (.ok false, st, [])

/-- `TicStage.moveRelSteps` (tic_stage.py lines 332-386).  In the range-known
branch the validity check itself reads the current position (one `gVariable`
transport command, its reply supplied as `currentPosRead`); the validated
branches then raise `AttributeError` at `super()._moveRelSteps` as in
`moveAbsSteps`. -/
def moveRelSteps (st : StageState) (steps currentPosRead : Int) (openLoopAssert : Bool) :
    Except PyErr Bool × StageState × List Nat :=
  if st.isMotionRangeKnown then
    if isTargetValid st (steps + currentPosRead) then
      (.error .attributeError, st, [cmdGetVariable])
    else (.ok false, st, [cmdGetVariable])
  else if openLoopAssert then (.error .attributeError, st, [])
  else (.ok false, st, [])

/-- Python `d[k] = v` on an insertion-ordered dict as an association list:
overwrite in place at the first (and only) binding of `k`, else append. -/
def dictSet (d : List (Int × Int)) (k v : Int) : List (Int × Int) :=
  match d with
  | [] => [(k, v)]
  | (k1, v1) :: rest => if k1 = k then (k, v) :: rest else (k1, v1) :: dictSet rest k v

/-- Python `d.update(m)`: set each entry of `m` in order. -/
def dictUpdate (d m : List (Int × Int)) : List (Int × Int) :=
  m.foldl (fun acc p => dictSet acc p.1 p.2) d

/-- Python `d[k]` lookup (first, and only, binding of `k`). -/
def dictGet (d : List (Int × Int)) (k : Int) : Option Int :=
  match d with
  | [] => none
  | (k1, v) :: rest => if k1 = k then some v else dictGet rest k

/-- `TicStage.setIndexedPositions` (tic_stage.py lines 518-560).  The argument
is a dict, so the `type(position_map) != dict` guard passes.  When the range
is known the loop `for v in vals: if not self.isTargetValid(v): return False`
returns before any mutation on the first invalid value, i.e. the update runs
iff every value is valid; otherwise the merge is unchecked.  `dict.update`
with hashable keys does not raise. -/
def setIndexedPositions (st : StageState) (positionMap : List (Int × Int)) :
    Bool × StageState :=
  if st.isMotionRangeKnown then
    if positionMap.all (fun p => isTargetValid st p.2) then
      (true, { st with indexPositions := dictUpdate st.indexPositions positionMap })
    else (false, st)
  else
    (true, { st with indexPositions := dictUpdate st.indexPositions positionMap })

/-- `TicStage.setCurrentPositionAsIndex` (tic_stage.py lines 493-516): reads
the current position (`posRead`) and merges the singleton map. -/
def setCurrentPositionAsIndex (st : StageState) (index posRead : Int) :
    Bool × StageState :=
  setIndexedPositions st [(index, posRead)]

/-- `TicStage.moveToLimit` (tic_stage.py lines 428-491).  The guard clauses
are translated directly.  Past the guards the method sets the homing speed,
reads the current position and then evaluates `super()._moveRelSteps`: no
class in the hierarchy defines `_moveRelSteps`, so attribute lookup raises
`AttributeError` and the method never reaches its polling loop (modelled
separately as `moveToLimitPoll`) nor its final `return True`.  None of the
`StageState` fields have been mutated at that point. -/
def moveToLimit (st : StageState) (limit : String) :
    Except PyErr Bool × StageState :=
  if st.enabled = false then (.ok false, st)
  else if limit = "fwd" then
    if st.fwdSwPresent = false then (.ok false, st)
    else (.error .attributeError, st)
  else if limit = "rev" then
    if st.revSwPresent = false then (.ok false, st)
    else (.error .attributeError, st)
  else (.ok false, st)

/-- The polling loop of `moveToLimit` and its final `return True`
(tic_stage.py lines 470-491; the identical loop is reachable in the sibling
implementation `src/pymotors/TicStage.py`, lines 281-305, where the relative
move is issued through composition and succeeds).  `positions k`, `limits k`
and `times k` are the position read, direction-specific limit-active bit and
elapsed time observed at the k-th poll; `fuel` bounds the iteration count,
`none` meaning the loop was still running after `fuel` polls.  The result
pairs the final `limit_active` with the value the method returns, which is
the literal `True` of line 491 regardless of why the loop exited. -/
def moveToLimitPoll (positions : Nat → Int) (limits : Nat → Bool) (times : Nat → Nat)
    (timeoutS maxSteps : Nat) (initialPosition : Int) :
    Nat → Nat → Int → Nat → Bool → Option (Bool × Bool)
  | 0, _, _, _, _ => none
  | fuel + 1, k, currentPosition, elapsedTime, limitActive =>
      if elapsedTime < timeoutS ∧ (currentPosition - initialPosition).natAbs < maxSteps
          ∧ limitActive = false then
        moveToLimitPoll positions limits times timeoutS maxSteps initialPosition
          fuel (k + 1) (positions k) (times k) (limits k)
      else
        some (limitActive, true)

/-- The tail of `TicStage.discoverMotionRange` (tic_stage.py lines 200-211),
reached after both `moveToLimit` phases: `home('rev')` is sent, the
limit-switch positions are re-zeroed (`rev := 0`, `fwd := fwd_pos - rev_pos`),
the range becomes known and the allowed range is recomputed. -/
def discoverMotionRangeFinish (st : StageState) (fwdPos revPos : PyPos) :
    Bool × StageState :=
  let st1 : StageState :=
    { st with
        revLimSwPosition := some 0
        fwdLimSwPosition := pySub fwdPos revPos
        isMotionRangeKnown := true }
  (true, (updateAllowedMotionRange st1).2)

/-- The reverse phase of `discoverMotionRange` (tic_stage.py lines 183-211):
with the reverse switch present, `moveToLimit('rev', ...)` is attempted (an
exception disables the motor and aborts, a `False` flag aborts) and the
position read `revPosRead` is recorded; without it `rev_pos = -float('inf')`. -/
def discoverMotionRangeRev (st : StageState) (fwdPos : PyPos) (revPosRead : Int) :
    Bool × StageState :=
  if st.revSwPresent then
    match moveToLimit st "rev" with
    | (.error _, st1) => (false, { st1 with enabled := false })
    | (.ok revLimAchieved, st1) =>
        if revLimAchieved = false then (false, st1)
        else discoverMotionRangeFinish st1 fwdPos (some revPosRead)
  else
    discoverMotionRangeFinish st fwdPos none

/-- `TicStage.discoverMotionRange` (tic_stage.py lines 144-211), with the two
position reads supplied as oracles.  With the forward switch present,
`moveToLimit('fwd', ...)` is attempted (its return value is ignored; an
exception disables the motor and aborts) and `fwd_pos` is the position read;
without it `fwd_pos = float('inf')`. -/
def discoverMotionRange (st : StageState) (fwdPosRead revPosRead : Int) :
    Bool × StageState :=
  if st.enabled = false then (false, st)
  else if st.fwdSwPresent = false ∧ st.revSwPresent = false then (false, st)
  else if st.fwdSwPresent then
    match moveToLimit st "fwd" with
    | (.error _, st1) => (false, { st1 with enabled := false })
    | (.ok _, st1) => discoverMotionRangeRev st1 (some fwdPosRead) revPosRead
  else
    discoverMotionRangeRev st none revPosRead

/-- `TicStage.moveToIndexedPosition` (tic_stage.py lines 388-426): a missing
index returns `False`; otherwise the inner `moveAbsSteps` runs (its flag
ignored, its exception propagating) and the method returns `True`. -/
def moveToIndexedPosition (st : StageState) (index : Int) (openLoopAssert : Bool) :
    Except PyErr Bool × StageState × List Nat :=
  match dictGet st.indexPositions index with
  | none => (.ok false, st, [])
  | some pos =>
      match moveAbsSteps st pos openLoopAssert with
      | (.error e, st1, w) => (.error e, st1, w)
      | (.ok _, st1, w) => (.ok true, st1, w)

/-- `TicStage.clearIndexedPositions` (tic_stage.py lines 118-121). -/
def clearIndexedPositions (st : StageState) : StageState :=
  { st with indexPositions := [] }

end TicStage

/-- One operation of the `TicStage` motion-range controller, with its oracle
inputs (position reads, transport success). -/
inductive StageOp
  | disable (sendOk : Bool)
  | enableSet (b : Bool)
  | discover (fwdPosRead revPosRead : Int)
  | moveToLimit (limit : String)
  | moveAbs (pos : Int) (openLoopAssert : Bool)
  | moveRel (steps currentPosRead : Int) (openLoopAssert : Bool)
  | moveToIndexed (index : Int) (openLoopAssert : Bool)
  | setIndexed (m : List (Int × Int))
  | setCurrentAsIndex (index posRead : Int)
  | clearIndexed
  | updateRange

/-- The state after running one controller operation (return values and
transport traffic discarded).  `enableSet` is the inherited `TicStepper.enable`
setter, which only flips the local flag and sends the energize/safe-start
commands. -/
def stageStep (op : StageOp) (st : StageState) : StageState :=
  match op with
  | .disable sendOk => (TicStage.disable sendOk st).2
  | .enableSet b => { st with enabled := b }
  | .discover r1 r2 => (TicStage.discoverMotionRange st r1 r2).2
  | .moveToLimit l => (TicStage.moveToLimit st l).2
  | .moveAbs p o => (TicStage.moveAbsSteps st p o).2.1
  | .moveRel s r o => (TicStage.moveRelSteps st s r o).2.1
  | .moveToIndexed i o => (TicStage.moveToIndexedPosition st i o).2.1
  | .setIndexed m => (TicStage.setIndexedPositions st m).2
  | .setCurrentAsIndex i r => (TicStage.setCurrentPositionAsIndex st i r).2
  | .clearIndexed => TicStage.clearIndexedPositions st
  | .updateRange => (TicStage.updateAllowedMotionRange st).2

/-- The motion-range data invariant: an unknown range forces the allowed
range down to `[0, 0]`. -/
def rangeInvariant (st : StageState) : Prop :=
  st.isMotionRangeKnown = false → st.allowedLo = some 0 ∧ st.allowedHi = some 0

/-- A concrete stage state: enabled, both switches present, range unknown. -/
def sampleStage : StageState :=
  { enabled := true
    fwdSwPresent := true
    revSwPresent := true
    isMotionRangeKnown := false
    allowedLo := some 0
    allowedHi := some 0
    revLimSwPosition := none
    fwdLimSwPosition := none
    indexPositions := []
    targetSteps := 0 }

/-- Byte `i` of the little-endian representation of `v`, as the specification
words it (`bi = byte i of little-endian value`). -/
def leByteClaim (v i : Nat) : Nat := v / 2 ^ (8 * i) % 256

/-- The Write32 stuffing byte as the specification describes it: bit `i` is
bit 7 of little-endian byte `i`, all higher bits clear. -/
def stuffClaim (v : Nat) : Nat :=
  (Bool.toNat ((leByteClaim v 0).testBit 7))
  ||| (Bool.toNat ((leByteClaim v 1).testBit 7)) <<< 1
  ||| (Bool.toNat ((leByteClaim v 2).testBit 7)) <<< 2
  ||| (Bool.toNat ((leByteClaim v 3).testBit 7)) <<< 3

/-- A concrete stage state with a known motion range `[20, 1480]`. -/
def rangedStage : StageState :=
  { sampleStage with
      isMotionRangeKnown := true
      allowedLo := some 20
      allowedHi := some 1480
      revLimSwPosition := some 0
      fwdLimSwPosition := some 1500 }

/-! ## Theorems -/

/-- Claim C10: for direction `fwd` or `rev`, whenever the settings read
succeeds, `checkLimitSwitch` returns `True` regardless of the reply bytes (the
reply, a list, is compared to the integer `0` with Python `==`, which is never
true), so a configured-switch check never reports a switch absent; only an
invalid direction string yields `False`. -/
theorem checkLimitSwitchAlwaysTrue :
    (∀ reply : List Nat,
        checkLimitSwitch "fwd" reply = true ∧ checkLimitSwitch "rev" reply = true)
  ∧ (∀ direction : String, direction ≠ "fwd" → direction ≠ "rev" →
      ∀ reply : List Nat, checkLimitSwitch direction reply = false) := by
  constructor
  · intro reply
    exact ⟨rfl, rfl⟩
  · intro d h1 h2 reply
    simp [checkLimitSwitch, h1, h2]

/-- Witness for `checkLimitSwitchAlwaysTrue` at concrete inputs. -/
theorem checkLimitSwitchAlwaysTrue_witness :
    checkLimitSwitch "fwd" [0] = true ∧ checkLimitSwitch "sideways" [0] = false :=
  ⟨(checkLimitSwitchAlwaysTrue.1 [0]).1,
   checkLimitSwitchAlwaysTrue.2 "sideways" (by decide) (by decide) [0]⟩

/-- Claim C2: decoding a 4-byte current-position reply assembles the unsigned
little-endian value and subtracts `2^32` when it is at least `2^31`; in
particular `[0xFF,0xFF,0xFF,0xFF]` decodes to `-1` and `[0,0,0,0x80]` to
`-2147483648`. -/
theorem positionInStepsSignedDecode (b0 b1 b2 b3 : Nat)
    (h0 : b0 < 256) (h1 : b1 < 256) (h2 : b2 < 256) (h3 : b3 < 256) :
    (positionInSteps [b0, b1, b2, b3] =
      some (if b0 + 256 * b1 + 65536 * b2 + 16777216 * b3 < 2 ^ 31
            then ((b0 + 256 * b1 + 65536 * b2 + 16777216 * b3 : Nat) : Int)
            else ((b0 + 256 * b1 + 65536 * b2 + 16777216 * b3 : Nat) : Int) - 2 ^ 32))
  ∧ positionInSteps [0xFF, 0xFF, 0xFF, 0xFF] = some (-1)
  ∧ positionInSteps [0x00, 0x00, 0x00, 0x80] = some (-2147483648) := by
  refine ⟨?_, by decide, by decide⟩
  have e : b0 + b1 <<< 8 + b2 <<< 16 + b3 <<< 24
      = b0 + 256 * b1 + 65536 * b2 + 16777216 * b3 := by
    simp [Nat.shiftLeft_eq]
    ring
  simp only [positionInSteps, bytesToInt, Option.map_some']
  rw [e]
  have h31 : (1 <<< 31 : Nat) = 2 ^ 31 := by norm_num [Nat.shiftLeft_eq]
  have h32 : (((1 <<< 32 : Nat) : Int)) = 2 ^ 32 := by norm_num [Nat.shiftLeft_eq]
  rw [h31, h32]
  by_cases hc : b0 + 256 * b1 + 65536 * b2 + 16777216 * b3 < 2 ^ 31
  · rw [if_neg (by omega), if_pos hc]
  · rw [if_pos (by omega), if_neg hc]

/-- Witness for `positionInStepsSignedDecode` at `[1, 0, 0, 128]`. -/
theorem positionInStepsSignedDecode_witness :
    (positionInSteps [1, 0, 0, 128] =
      some (if 1 + 256 * 0 + 65536 * 0 + 16777216 * 128 < 2 ^ 31
            then ((1 + 256 * 0 + 65536 * 0 + 16777216 * 128 : Nat) : Int)
            else ((1 + 256 * 0 + 65536 * 0 + 16777216 * 128 : Nat) : Int) - 2 ^ 32))
  ∧ positionInSteps [0xFF, 0xFF, 0xFF, 0xFF] = some (-1)
  ∧ positionInSteps [0x00, 0x00, 0x00, 0x80] = some (-2147483648) :=
  positionInStepsSignedDecode 1 0 0 128 (by norm_num) (by norm_num) (by norm_num)
    (by norm_num)

/-- Claim C8 counterexample: a Write7 payload of 128 (greater than 127) is not
rejected; on both transports the send succeeds and the byte is written as-is,
refuting "fails with ValueOutOfRange and no bytes are written". -/
theorem write7Payload128Written :
    serialSendWrite7 none 0x91 128 = .ok [[0x91, 128]]
  ∧ i2cSendWrite7 14 0x91 128 = .ok [(14, [0x91, 128])] := by
  constructor <;> rfl

/-- Claim C8 as amended: a Write7 payload is sent without any 7-bit range
validation.  Payloads up to 255 are written as a single raw byte on both
transports; only a payload above 255 fails (`ValueError` from the byte
conversion) before any bytes are sent. -/
theorem write7RangeBehaviour (address offset v : Nat) (hoff : offset < 256) :
    (v < 256 →
        serialSendWrite7 none offset v = .ok [[offset, v]]
      ∧ i2cSendWrite7 address offset v = .ok [(address, [offset, v])])
  ∧ (256 ≤ v →
        serialSendWrite7 none offset v = .error .valueError
      ∧ i2cSendWrite7 address offset v = .error .valueError) := by
  constructor
  · intro hv
    constructor <;>
      simp [serialSendWrite7, i2cSendWrite7, makeSerialInput, bytesInRange, hoff, hv]
  · intro hv
    constructor <;>
      simp [serialSendWrite7, i2cSendWrite7, makeSerialInput, bytesInRange, hoff] <;>
      omega

/-- Witness for `write7RangeBehaviour` at payloads 130 and 300. -/
theorem write7RangeBehaviour_witness :
    (serialSendWrite7 none 0x91 130 = .ok [[0x91, 130]]
      ∧ i2cSendWrite7 14 0x91 130 = .ok [(14, [0x91, 130])])
  ∧ (serialSendWrite7 none 0x91 300 = .error .valueError
      ∧ i2cSendWrite7 14 0x91 300 = .error .valueError) :=
  ⟨(write7RangeBehaviour 14 0x91 130 (by norm_num)).1 (by norm_num),
   (write7RangeBehaviour 14 0x91 300 (by norm_num)).2 (by norm_num)⟩

/-- Claim C4: `isTargetValid(pos)` is true iff the motion range is known and
`allowedLower ≤ pos ≤ allowedUpper` (inclusive); when the range is unknown it
is false for every position. -/
theorem isTargetValidIffInRange (st : StageState) (pos lo hi : Int) :
    (st.allowedLo = some lo → st.allowedHi = some hi →
      (TicStage.isTargetValid st pos = true ↔
        st.isMotionRangeKnown = true ∧ lo ≤ pos ∧ pos ≤ hi))
  ∧ (st.isMotionRangeKnown = false → TicStage.isTargetValid st pos = false) := by
  constructor
  · intro hlo hhi
    cases hk : st.isMotionRangeKnown <;>
      simp [TicStage.isTargetValid, pyGe, pyLe, hlo, hhi, hk, and_assoc]
  · intro hk
    simp [TicStage.isTargetValid, hk]

/-- Witness for `isTargetValidIffInRange`: position 100 is valid in the range
`[20, 1480]`, and invalid once the range is unknown. -/
theorem isTargetValidIffInRange_witness :
    TicStage.isTargetValid rangedStage 100 = true
  ∧ TicStage.isTargetValid sampleStage 100 = false :=
  ⟨((isTargetValidIffInRange rangedStage 100 20 1480).1 rfl rfl).mpr
      ⟨rfl, by norm_num, by norm_num⟩,
   (isTargetValidIffInRange sampleStage 100 20 1480).2 rfl⟩

/-- Claim C7: `moveAbsSteps` with the range unknown and `open_loop_assert`
false refuses the move with zero transport commands; with the range known and
an invalid target it refuses likewise with zero transport commands. -/
theorem moveAbsStepsRefusalNoWrites (st : StageState) (pos : Int) :
    (st.isMotionRangeKnown = false →
      TicStage.moveAbsSteps st pos false = (.ok false, st, []))
  ∧ (∀ openLoopAssert : Bool,
      st.isMotionRangeKnown = true → TicStage.isTargetValid st pos = false →
      TicStage.moveAbsSteps st pos openLoopAssert = (.ok false, st, [])) := by
  constructor
  · intro hk
    simp [TicStage.moveAbsSteps, hk]
  · intro o hk hv
    simp [TicStage.moveAbsSteps, hk, hv]

/-- Witness for `moveAbsStepsRefusalNoWrites`: refusals at a range-unknown
state and at an out-of-range target. -/
theorem moveAbsStepsRefusalNoWrites_witness :
    TicStage.moveAbsSteps sampleStage 5 false = (.ok false, sampleStage, [])
  ∧ TicStage.moveAbsSteps rangedStage 5000 true = (.ok false, rangedStage, []) :=
  ⟨(moveAbsStepsRefusalNoWrites sampleStage 5).1 rfl,
   (moveAbsStepsRefusalNoWrites rangedStage 5000).2 true rfl (by decide)⟩

/-- `moveToLimit` leaves the tracked state unchanged in every branch. -/
theorem moveToLimit_state (st : StageState) (l : String) :
    (TicStage.moveToLimit st l).2 = st := by
  unfold TicStage.moveToLimit
  split_ifs <;> rfl

/-- `moveAbsSteps` leaves the tracked state unchanged in every branch. -/
theorem moveAbsSteps_state (st : StageState) (p : Int) (o : Bool) :
    (TicStage.moveAbsSteps st p o).2.1 = st := by
  unfold TicStage.moveAbsSteps
  split_ifs <;> rfl

/-- `moveRelSteps` leaves the tracked state unchanged in every branch. -/
theorem moveRelSteps_state (st : StageState) (s r : Int) (o : Bool) :
    (TicStage.moveRelSteps st s r o).2.1 = st := by
  unfold TicStage.moveRelSteps
  split_ifs <;> rfl

/-- `moveToIndexedPosition` leaves the tracked state unchanged. -/
theorem moveToIndexedPosition_state (st : StageState) (i : Int) (o : Bool) :
    (TicStage.moveToIndexedPosition st i o).2.1 = st := by
  unfold TicStage.moveToIndexedPosition
  rcases hg : TicStage.dictGet st.indexPositions i with _ | pos
  · rfl
  · rcases hmv : TicStage.moveAbsSteps st pos o with ⟨r, st1, w⟩
    have hst : st1 = st := by
      have h2 := moveAbsSteps_state st pos o
      rw [hmv] at h2
      exact h2
    cases r <;> simp [hmv, hst]

/-- `setIndexedPositions` only mutates the indexed-position map. -/
theorem setIndexedPositions_fields (st : StageState) (m : List (Int × Int)) :
    (TicStage.setIndexedPositions st m).2.isMotionRangeKnown = st.isMotionRangeKnown
  ∧ (TicStage.setIndexedPositions st m).2.allowedLo = st.allowedLo
  ∧ (TicStage.setIndexedPositions st m).2.allowedHi = st.allowedHi := by
  unfold TicStage.setIndexedPositions
  split_ifs <;> exact ⟨rfl, rfl, rfl⟩

/-- `discoverMotionRange` either leaves the state unchanged (a refused
precondition) or merely disables the motor (the `AttributeError` path taken
whenever a limit switch is present). -/
theorem discoverMotionRange_state (st : StageState) (r1 r2 : Int) :
    (TicStage.discoverMotionRange st r1 r2).2 = st
  ∨ (TicStage.discoverMotionRange st r1 r2).2 = { st with enabled := false } := by
  unfold TicStage.discoverMotionRange TicStage.discoverMotionRangeRev TicStage.moveToLimit
  by_cases he : st.enabled = false
  · simp [he]
  · by_cases hf : st.fwdSwPresent = false
    · by_cases hr : st.revSwPresent = false
      · simp [he, hf, hr]
      · simp [he, hf, hr]
    · simp [he, hf]

/-- Claim C5: the invariant "range not known implies allowed range `[0, 0]`"
is preserved by every operation of the motion-range controller, and
`disable()` from any state forces the range unknown and the allowed range back
to `[0, 0]`. -/
theorem motionRangeInvariantHolds :
    (∀ (op : StageOp) (st : StageState),
        rangeInvariant st → rangeInvariant (stageStep op st))
  ∧ (∀ (sendOk : Bool) (st : StageState),
        (TicStage.disable sendOk st).2.isMotionRangeKnown = false
      ∧ (TicStage.disable sendOk st).2.allowedLo = some 0
      ∧ (TicStage.disable sendOk st).2.allowedHi = some 0) := by
  constructor
  · intro op st h
    cases op with
    | disable sendOk => exact fun _ => ⟨rfl, rfl⟩
    | enableSet b => exact fun hk => h hk
    | discover r1 r2 =>
        rcases discoverMotionRange_state st r1 r2 with hd | hd <;>
          · show rangeInvariant (TicStage.discoverMotionRange st r1 r2).2
            rw [hd]
            exact fun hk => h hk
    | moveToLimit l =>
        show rangeInvariant (TicStage.moveToLimit st l).2
        rw [moveToLimit_state]
        exact h
    | moveAbs p o =>
        show rangeInvariant (TicStage.moveAbsSteps st p o).2.1
        rw [moveAbsSteps_state]
        exact h
    | moveRel s r o =>
        show rangeInvariant (TicStage.moveRelSteps st s r o).2.1
        rw [moveRelSteps_state]
        exact h
    | moveToIndexed i o =>
        show rangeInvariant (TicStage.moveToIndexedPosition st i o).2.1
        rw [moveToIndexedPosition_state]
        exact h
    | setIndexed m =>
        show rangeInvariant (TicStage.setIndexedPositions st m).2
        obtain ⟨hk, hlo, hhi⟩ := setIndexedPositions_fields st m
        intro hu
        rw [hk] at hu
        rw [hlo, hhi]
        exact h hu
    | setCurrentAsIndex i r =>
        show rangeInvariant (TicStage.setCurrentPositionAsIndex st i r).2
        obtain ⟨hk, hlo, hhi⟩ := setIndexedPositions_fields st [(i, r)]
        intro hu
        rw [TicStage.setCurrentPositionAsIndex] at *
        rw [hk] at hu
        rw [hlo, hhi]
        exact h hu
    | clearIndexed => exact fun hk => h hk
    | updateRange =>
        show rangeInvariant (TicStage.updateAllowedMotionRange st).2
        unfold TicStage.updateAllowedMotionRange
        by_cases hk : st.isMotionRangeKnown <;> simp [hk, rangeInvariant]
  · intro sendOk st
    exact ⟨rfl, rfl, rfl⟩

/-- Witness for `motionRangeInvariantHolds`: the invariant after a `disable`
on the sample state, and the `disable` postcondition there. -/
theorem motionRangeInvariantHolds_witness :
    rangeInvariant (stageStep (StageOp.disable true) sampleStage)
  ∧ ((TicStage.disable true sampleStage).2.isMotionRangeKnown = false
      ∧ (TicStage.disable true sampleStage).2.allowedLo = some 0
      ∧ (TicStage.disable true sampleStage).2.allowedHi = some 0) :=
  ⟨motionRangeInvariantHolds.1 (StageOp.disable true) sampleStage
      (fun _ => ⟨rfl, rfl⟩),
   motionRangeInvariantHolds.2 true sampleStage⟩

/-- Looking up an absent key yields `none`. -/
theorem dictGet_eq_none (d : List (Int × Int)) (k : Int)
    (h : d.any (fun p => p.1 = k) = false) :
    TicStage.dictGet d k = none := by
  induction d with
  | nil => rfl
  | cons p rest ih =>
      simp only [List.any_cons, Bool.or_eq_false_iff] at h
      obtain ⟨h1, h2⟩ := h
      rcases p with ⟨k1, v1⟩
      simp only [TicStage.dictGet]
      rw [if_neg (by simpa using h1)]
      exact ih h2

/-- `dictSet` binds the written key. -/
theorem dictGet_dictSet_self (d : List (Int × Int)) (k v : Int) :
    TicStage.dictGet (TicStage.dictSet d k v) k = some v := by
  induction d with
  | nil => simp [TicStage.dictSet, TicStage.dictGet]
  | cons p rest ih =>
      rcases p with ⟨k1, v1⟩
      by_cases hk : k1 = k
      · simp [TicStage.dictSet, TicStage.dictGet, hk]
      · simp [TicStage.dictSet, TicStage.dictGet, hk, ih]

/-- `dictSet` leaves other keys unchanged. -/
theorem dictGet_dictSet_ne (d : List (Int × Int)) (k v k1 : Int) (h : k1 ≠ k) :
    TicStage.dictGet (TicStage.dictSet d k v) k1 = TicStage.dictGet d k1 := by
  induction d with
  | nil =>
      have hne2 : ¬k = k1 := fun hh => h hh.symm
      simp [TicStage.dictSet, TicStage.dictGet, hne2]
  | cons p rest ih =>
      rcases p with ⟨k2, v2⟩
      by_cases hk : k2 = k
      · have hne2 : ¬k = k1 := fun hh => h hh.symm
        simp [TicStage.dictSet, TicStage.dictGet, hk, hne2]
      · by_cases hk1 : k2 = k1
        · simp [TicStage.dictSet, TicStage.dictGet, hk, hk1, h]
        · simp [TicStage.dictSet, TicStage.dictGet, hk, hk1, ih]

/-- Keys outside the update map are untouched by `dictUpdate`. -/
theorem dictGet_dictUpdate_of_not_mem (m d : List (Int × Int)) (k : Int)
    (h : ∀ p ∈ m, p.1 ≠ k) :
    TicStage.dictGet (TicStage.dictUpdate d m) k = TicStage.dictGet d k := by
  induction m generalizing d with
  | nil => rfl
  | cons p rest ih =>
      simp only [TicStage.dictUpdate, List.foldl_cons]
      have step := ih (TicStage.dictSet d p.1 p.2)
        (fun q hq => h q (List.mem_cons_of_mem p hq))
      unfold TicStage.dictUpdate at step
      rw [step]
      exact dictGet_dictSet_ne d p.1 p.2 k
        (fun hh => h p (List.mem_cons_self p rest) hh.symm)

/-- With pairwise-distinct keys, every entry of the update map is present in
the merged dict. -/
theorem dictGet_dictUpdate_mem (m d : List (Int × Int))
    (hnd : (m.map Prod.fst).Nodup) {k v : Int} (hm : (k, v) ∈ m) :
    TicStage.dictGet (TicStage.dictUpdate d m) k = some v := by
  induction m generalizing d with
  | nil => simp at hm
  | cons p rest ih =>
      rw [List.map_cons, List.nodup_cons] at hnd
      obtain ⟨hnotin, hnd2⟩ := hnd
      rcases List.mem_cons.mp hm with hh | hh
      · subst hh
        simp only [TicStage.dictUpdate, List.foldl_cons]
        have step := dictGet_dictUpdate_of_not_mem rest (TicStage.dictSet d k v) k
          (fun q hq hqk => hnotin (List.mem_map.mpr ⟨q, hq, hqk⟩))
        unfold TicStage.dictUpdate at step
        rw [step]
        exact dictGet_dictSet_self d k v
      · simp only [TicStage.dictUpdate, List.foldl_cons]
        exact ih (TicStage.dictSet d p.1 p.2) hnd2 hh

/-- Claim C6: with the range known, `setIndexedPositions` is all-or-nothing:
if every value is valid the whole map is merged (and, for distinct keys, every
entry is retrievable afterwards); if any value is invalid it fails with the
indexed-position map completely unchanged.  With the range unknown the merge
is unchecked. -/
theorem setIndexedPositionsAtomic (st : StageState) (m : List (Int × Int)) :
    (st.isMotionRangeKnown = true →
      ((∀ p ∈ m, TicStage.isTargetValid st p.2 = true) →
        TicStage.setIndexedPositions st m =
          (true, { st with indexPositions := TicStage.dictUpdate st.indexPositions m })
        ∧ ((m.map Prod.fst).Nodup → ∀ p ∈ m,
            TicStage.dictGet (TicStage.setIndexedPositions st m).2.indexPositions p.1
              = some p.2))
      ∧ ((∃ p ∈ m, TicStage.isTargetValid st p.2 = false) →
        TicStage.setIndexedPositions st m = (false, st)))
  ∧ (st.isMotionRangeKnown = false →
      TicStage.setIndexedPositions st m =
        (true, { st with indexPositions := TicStage.dictUpdate st.indexPositions m })) := by
  constructor
  · intro hk
    constructor
    · intro hall
      have hallb : m.all (fun p => TicStage.isTargetValid st p.2) = true :=
        List.all_eq_true.mpr hall
      have heq : TicStage.setIndexedPositions st m =
          (true, { st with indexPositions := TicStage.dictUpdate st.indexPositions m }) := by
        unfold TicStage.setIndexedPositions
        rw [if_pos (by rw [hk]), if_pos hallb]
      refine ⟨heq, fun hnd p hp => ?_⟩
      rw [heq]
      exact dictGet_dictUpdate_mem m st.indexPositions hnd
        (by rcases p with ⟨a, b⟩; exact hp)
    · intro hex
      have hallb : m.all (fun p => TicStage.isTargetValid st p.2) = false := by
        rcases hex with ⟨p, hp, hval⟩
        exact List.all_eq_false.mpr ⟨p, hp, by simp [hval]⟩
      unfold TicStage.setIndexedPositions
      rw [if_pos (by rw [hk]), if_neg (by simp [hallb])]
  · intro hk
    unfold TicStage.setIndexedPositions
    rw [if_neg (by simp [hk])]

/-- Witness for `setIndexedPositionsAtomic`: a valid merge, a rejected merge
left unchanged, and an unchecked merge. -/
theorem setIndexedPositionsAtomic_witness :
    TicStage.setIndexedPositions rangedStage [(1, 100)] =
      (true, { rangedStage with
                indexPositions := TicStage.dictUpdate rangedStage.indexPositions [(1, 100)] })
  ∧ TicStage.setIndexedPositions rangedStage [(1, 100), (2, 5000)] =
      (false, rangedStage)
  ∧ TicStage.setIndexedPositions sampleStage [(1, 99999)] =
      (true, { sampleStage with
                indexPositions := TicStage.dictUpdate sampleStage.indexPositions [(1, 99999)] }) :=
  ⟨(((setIndexedPositionsAtomic rangedStage [(1, 100)]).1 rfl).1 (by decide)).1,
   ((setIndexedPositionsAtomic rangedStage [(1, 100), (2, 5000)]).1 rfl).2
      ⟨(2, 5000), by decide, by decide⟩,
   (setIndexedPositionsAtomic sampleStage [(1, 99999)]).2 rfl⟩

/-- Claim C3 (code bug): on an enabled stage with both limit switches present,
`discoverMotionRange` never succeeds — the inner `moveToLimit` raises
`AttributeError` at the nonexistent `super()._moveRelSteps`, the handler
disables the motor and the run returns `False` with the range still unknown.
The re-zeroing tail the claim describes (lines 200-211) is unreachable, and
evaluating it at the claimed positions (forward limit 1000, reverse limit
-500) does produce `reverseLimitSteps = 0`, `forwardLimitSteps = 1500`, range
known and allowed range `[20, 1480]`, confirming the claim's arithmetic
against the code's dead tail. -/
theorem discoverMotionRangeNeverSucceeds :
    TicStage.discoverMotionRange sampleStage 1000 (-500)
        = (false, { sampleStage with enabled := false })
  ∧ (TicStage.discoverMotionRange sampleStage 1000 (-500)).2.isMotionRangeKnown = false
  ∧ TicStage.discoverMotionRangeFinish sampleStage (some 1000) (some (-500))
        = (true, { sampleStage with
                    revLimSwPosition := some 0
                    fwdLimSwPosition := some 1500
                    isMotionRangeKnown := true
                    allowedLo := some 20
                    allowedHi := some 1480 }) := by
  refine ⟨by decide, by decide, by decide⟩

/-- Claim C9 (code bug): with the motor enabled and the forward switch
present, `moveToLimit` raises `AttributeError` (at `super()._moveRelSteps`)
instead of returning any flag; moreover the polling loop it was meant to run
(reachable verbatim in the sibling `TicStage.py` implementation) ends in an
unconditional `return True`: under oracles where the limit bit is never
observed and the loop exits because the step budget (5 steps) is exhausted,
the loop's final `limit_active` is `false` yet the returned flag is `true`. -/
theorem moveToLimitAlwaysReportsSuccess :
    TicStage.moveToLimit sampleStage "fwd"
        = (Except.error PyErr.attributeError, sampleStage)
  ∧ TicStage.moveToLimitPoll (fun k => (k : Int) + 1) (fun _ => false) (fun _ => 0)
        60 5 0 20 0 0 0 false = some (false, true) := by
  refine ⟨rfl, by decide⟩

/-- The bits of the constant `255`. -/
theorem testBit_255 (i : Nat) : (255 : Nat).testBit i = decide (i < 8) := by
  by_cases h : i < 8
  · interval_cases i <;> decide
  · have h8 : (2 : Nat) ^ 8 ≤ 2 ^ i := Nat.pow_le_pow_right (by norm_num) (by omega)
    have hlt : (255 : Nat) < 2 ^ i := lt_of_lt_of_le (by norm_num) h8
    simp [Nat.testBit_lt_two_pow hlt, h]

/-- The bits of the constant `127`. -/
theorem testBit_127 (i : Nat) : (127 : Nat).testBit i = decide (i < 7) := by
  by_cases h : i < 7
  · interval_cases i <;> decide
  · have h7 : (2 : Nat) ^ 7 ≤ 2 ^ i := Nat.pow_le_pow_right (by norm_num) (by omega)
    have hlt : (127 : Nat) < 2 ^ i := lt_of_lt_of_le (by norm_num) h7
    simp [Nat.testBit_lt_two_pow hlt, h]

/-- Masking with `0x7F` ignores everything above the low byte. -/
theorem and127_mod (x : Nat) : x % 256 &&& 127 = x &&& 127 := by
  apply Nat.eq_of_testBit_eq
  intro i
  rw [Nat.testBit_and, Nat.testBit_and, testBit_127]
  by_cases hi : i < 7
  · have hi8 : i < 8 := by omega
    rw [show (256 : Nat) = 2 ^ 8 from rfl, Nat.testBit_mod_two_pow]
    simp [hi, hi8]
  · simp [hi]

/-- Masking with `0xFF` is reduction mod 256. -/
theorem and255_eq_mod (x : Nat) : x &&& 255 = x % 256 := by
  apply Nat.eq_of_testBit_eq
  intro i
  rw [Nat.testBit_and, testBit_255,
    show (256 : Nat) = 2 ^ 8 from rfl, Nat.testBit_mod_two_pow]
  by_cases hi : i < 8 <;> simp [hi]

/-- Bit `j` of little-endian byte `i` is bit `8 i + j` of the value. -/
theorem leByteClaim_testBit (v i j : Nat) :
    (leByteClaim v i).testBit j = (decide (j < 8) && v.testBit (8 * i + j)) := by
  unfold leByteClaim
  rw [show (256 : Nat) = 2 ^ 8 from rfl, Nat.testBit_mod_two_pow,
    ← Nat.shiftRight_eq_div_pow, Nat.testBit_shiftRight]

/-- The bits of `Bool.toNat`. -/
theorem toNat_testBit (b : Bool) (j : Nat) :
    (Bool.toNat b).testBit j = (b && decide (j = 0)) := by
  cases b
  · simp [Bool.toNat]
  · rw [show Bool.toNat true = 2 ^ 0 from rfl, Nat.testBit_two_pow]
    simp [eq_comm]

/-- Reading back a bit stored as `Bool.toNat`. -/
theorem decide_toNat_mod_two (b : Bool) : decide (b.toNat % 2 = 1) = b := by
  cases b <;> rfl

/-- The stuffing expression of `TicSerial.send` equals the claim's stuffing
byte. -/
theorem serialStuff_eq (v : Nat) :
    (v >>> 7 &&& 1) ||| (v >>> 14 &&& 2) ||| (v >>> 21 &&& 4) ||| (v >>> 28 &&& 8)
      = stuffClaim v := by
  have h7 : v >>> 7 &&& 1 = (v.testBit 7).toNat * 1 := by
    have h := Nat.and_two_pow (v >>> 7) 0
    rw [show (2 : Nat) ^ 0 = 1 from rfl] at h
    rw [h, Nat.testBit_shiftRight]
  have h15 : v >>> 14 &&& 2 = (v.testBit 15).toNat * 2 := by
    have h := Nat.and_two_pow (v >>> 14) 1
    rw [show (2 : Nat) ^ 1 = 2 from rfl] at h
    rw [h, Nat.testBit_shiftRight]
  have h23 : v >>> 21 &&& 4 = (v.testBit 23).toNat * 4 := by
    have h := Nat.and_two_pow (v >>> 21) 2
    rw [show (2 : Nat) ^ 2 = 4 from rfl] at h
    rw [h, Nat.testBit_shiftRight]
  have h31 : v >>> 28 &&& 8 = (v.testBit 31).toNat * 8 := by
    have h := Nat.and_two_pow (v >>> 28) 3
    rw [show (2 : Nat) ^ 3 = 8 from rfl] at h
    rw [h, Nat.testBit_shiftRight]
  rw [h7, h15, h23, h31]
  unfold stuffClaim
  rw [leByteClaim_testBit, leByteClaim_testBit, leByteClaim_testBit, leByteClaim_testBit]
  norm_num
  cases hb7 : v.testBit 7 <;> cases hb15 : v.testBit 15 <;>
    cases hb23 : v.testBit 23 <;> cases hb31 : v.testBit 31 <;> rfl

/-- Claim C1: for every 32-bit value, the compact-protocol Serial encoding of
a Write32 command is `[addr, stuff, b0 &&& 0x7F, b1 &&& 0x7F, b2 &&& 0x7F,
b3 &&& 0x7F]` where `bi` is little-endian byte `i` and bit `i` of `stuff` is
bit 7 of `bi`; the I2C encoding is the plain little-endian
`[addr, b0, b1, b2, b3]` with no stuffing. -/
theorem write32EncodingLayout (addr v : Nat) (hv : v < 2 ^ 32) :
    serialWrite32Command none addr v =
      [addr, stuffClaim v,
       leByteClaim v 0 &&& 0x7F, leByteClaim v 1 &&& 0x7F,
       leByteClaim v 2 &&& 0x7F, leByteClaim v 3 &&& 0x7F]
  ∧ i2cWrite32Command addr v =
      [addr, leByteClaim v 0, leByteClaim v 1, leByteClaim v 2, leByteClaim v 3]
  ∧ (∀ i, i < 4 → (stuffClaim v).testBit i = (leByteClaim v i).testBit 7) := by
  have hserial : ∀ i : Nat,
      v >>> (8 * i) &&& 127 = leByteClaim v i &&& 127 := by
    intro i
    unfold leByteClaim
    rw [Nat.shiftRight_eq_div_pow, and127_mod]
  have hi2c : ∀ i : Nat, v >>> (8 * i) &&& 255 = leByteClaim v i := by
    intro i
    unfold leByteClaim
    rw [and255_eq_mod, Nat.shiftRight_eq_div_pow]
  refine ⟨?_, ?_, ?_⟩
  · unfold serialWrite32Command makeSerialInput serialWrite32Data
    rw [serialStuff_eq,
      show v >>> 0 &&& 0x7F = leByteClaim v 0 &&& 0x7F from hserial 0,
      show v >>> 8 &&& 0x7F = leByteClaim v 1 &&& 0x7F from hserial 1,
      show v >>> 16 &&& 0x7F = leByteClaim v 2 &&& 0x7F from hserial 2,
      show v >>> 24 &&& 0x7F = leByteClaim v 3 &&& 0x7F from hserial 3]
    rfl
  · unfold i2cWrite32Command
    rw [show v >>> 0 &&& 0xFF = leByteClaim v 0 from hi2c 0,
      show v >>> 8 &&& 0xFF = leByteClaim v 1 from hi2c 1,
      show v >>> 16 &&& 0xFF = leByteClaim v 2 from hi2c 2,
      show v >>> 24 &&& 0xFF = leByteClaim v 3 from hi2c 3]
  · intro i hi
    interval_cases i <;>
      simp [stuffClaim, Nat.testBit_or, Nat.testBit_shiftLeft, toNat_testBit,
        leByteClaim_testBit, decide_toNat_mod_two]

/-- Witness for `write32EncodingLayout` at `addr = 0xE0`, `v = 0xFFFFFFFF`. -/
theorem write32EncodingLayout_witness :
    serialWrite32Command none 0xE0 0xFFFFFFFF =
      [0xE0, stuffClaim 0xFFFFFFFF,
       leByteClaim 0xFFFFFFFF 0 &&& 0x7F, leByteClaim 0xFFFFFFFF 1 &&& 0x7F,
       leByteClaim 0xFFFFFFFF 2 &&& 0x7F, leByteClaim 0xFFFFFFFF 3 &&& 0x7F]
  ∧ i2cWrite32Command 0xE0 0xFFFFFFFF =
      [0xE0, leByteClaim 0xFFFFFFFF 0, leByteClaim 0xFFFFFFFF 1,
       leByteClaim 0xFFFFFFFF 2, leByteClaim 0xFFFFFFFF 3]
  ∧ (∀ i, i < 4 →
      (stuffClaim 0xFFFFFFFF).testBit i = (leByteClaim 0xFFFFFFFF i).testBit 7) :=
  write32EncodingLayout 0xE0 0xFFFFFFFF (by norm_num)

end PyMotors
